import Mathlib

/-!
Verification development for the mapcache core sources:
  - the multitier cache backend (`_mapcache_cache_multitier_tile_get` and friends),
  - the OS-level locking support (`mapcache_lock_or_wait_for_resource`, the disk,
    memcache and fallback lockers),
  - the apache module glue (`mod_mapcache_merge_server_conf`, proxy header
    forwarding in `mod_mapcache_request_handler`),
  - the riak cache backend (`_mapcache_cache_riak_get` / `_set` / `_has_tile`).

The C sources are embedded shallowly: machine state that a function reads and
writes (the tile data, the per-request error ledger, the array of child caches)
is passed and returned explicitly, and the surrounding infrastructure (APR,
riack, the HTTP host) appears as abstract inputs describing what the external
calls would have returned.
-/

namespace Mapcache

/-! ## Section 1: cache backend results and the multitier cache

`mapcache_cache_tile_get` returns one of MAPCACHE_SUCCESS, MAPCACHE_CACHE_MISS
or MAPCACHE_FAILURE; we keep them symbolic. -/

inductive CacheGetResult where
  | success
  | miss
  | failure
deriving DecidableEq, Repr

/-- Opaque tile payload bytes (`tile->encoded_data`). -/
abbrev Bytes := List Nat

/-- One child cache of a multitier cache, viewed through the backend contract
(spec 4.D) for a fixed tile `t`: it either holds bytes for `t` or not, its
`get` either answers per its contents or fails (returning MAPCACHE_FAILURE and
setting a context error), and its `set` either stores `tile->encoded_data` or
raises a context error and stores nothing. -/
structure Tier where
  contents : Option Bytes
  getFails : Bool
  setFails : Bool
deriving DecidableEq, Repr

instance : Inhabited Tier := ⟨⟨none, false, false⟩⟩

/-- Result of `mapcache_cache_tile_get` on one tier, for the fixed tile. -/
def Tier.getResult (t : Tier) : CacheGetResult :=
  if t.getFails then .failure
  else match t.contents with
    | some _ => .success
    | none => .miss

/-- Embedding of `mapcache_cache_tile_set` on one tier: the new tier state and whether a
context error was raised. -/
def Tier.setTile (t : Tier) (d : Bytes) : Tier × Bool :=
  if t.setFails then (t, true) else ({ t with contents := some d }, false)

/-- Embedding of `APR_ARRAY_IDX(cache->caches, i, mapcache_cache*)`: the i-th child cache
(out-of-range indexing never occurs on the paths modelled; a default tier
stands in for it). -/
def tierAt (l : List Tier) (i : Nat) : Tier := l.getD i default

/-- Output of `_mapcache_cache_multitier_tile_get`: the return code, the final
state of the child caches, the final context error flag, the fetched
`tile->encoded_data`, and the indices of the child caches that received a
promotion `mapcache_cache_tile_set`, in call order. -/
structure MTGetOut where
  ret : CacheGetResult
  tiers : List Tier
  ctxError : Bool
  tileData : Option Bytes
  setEvents : List Nat
deriving DecidableEq, Repr

/-- The promotion loop `for(--i;i>=0;i--) { mapcache_cache_tile_set(...);
ctx->clear_errors(ctx); }` of `_mapcache_cache_multitier_tile_get`, entered
with `i` the index of the tier that served the hit: `promoteFrom d tiers j`
performs the sets at indices `j, j-1, ..., 0` (so it is invoked with
`j = i - 1`). Every error a set raises is cleared right away. -/
def promoteFrom (d : Bytes) (tiers : List Tier) : Nat → List Tier × List Nat
  | 0 =>
    (tiers.set 0 ((tierAt tiers 0).setTile d).1, [0])
  | j+1 =>
    let tiers1 := tiers.set (j+1) ((tierAt tiers (j+1)).setTile d).1
    let out := promoteFrom d tiers1 j
    (out.1, (j+1) :: out.2)

/-- The descent loop `for(i=1;i<cache->caches->nelts;i++)` of
`_mapcache_cache_multitier_tile_get`: `full` is the whole cache array (needed
for promotion), `i` the index of the tier under consideration and `rest` the
suffix `full.drop i` still to walk. Only a result equal to MAPCACHE_SUCCESS
triggers promotion (a tier answering MAPCACHE_FAILURE merely leaves its
context error set and the loop moves on); if the loop exhausts the tiers the
function returns MAPCACHE_CACHE_MISS. -/
def mtDescend (full : List Tier) : Nat → Bool → List Tier → MTGetOut
  | _, ctxErr, [] =>
    { ret := .miss, tiers := full, ctxError := ctxErr,
      tileData := none, setEvents := [] }
  | i, ctxErr, t :: rest =>
    if t.getFails then
      mtDescend full (i+1) true rest
    else
      match t.contents with
      | some d =>
        let promoted := promoteFrom d full (i-1)
        { ret := .success, tiers := promoted.1, ctxError := false,
          tileData := some d, setEvents := promoted.2 }
      | none => mtDescend full (i+1) ctxErr rest

/-- Shallow embedding of `_mapcache_cache_multitier_tile_get`: read tier 0;
on MAPCACHE_CACHE_MISS descend through tiers 1..n-1, promoting into tiers
0..k-1 (in the order k-1 first, 0 last) on the first deep success; any other
tier-0 answer is returned as is. -/
def multitierGet (tiers : List Tier) : MTGetOut :=
  let t0 := tierAt tiers 0
  if t0.getFails then
    { ret := .failure, tiers := tiers, ctxError := true,
      tileData := none, setEvents := [] }
  else
    match t0.contents with
    | some d =>
      { ret := .success, tiers := tiers, ctxError := false,
        tileData := some d, setEvents := [] }
    | none => mtDescend tiers 1 false (tiers.drop 1)

/-! ## Section 2: `mapcache_lock_or_wait_for_resource`

The routine returns the symbolic constants MAPCACHE_TRUE, MAPCACHE_FALSE or
MAPCACHE_FAILURE; their numeric values live in `mapcache.h`, which is not part
of these sources, so they are kept as distinct constructors (the spec's
three-way outcome: own the critical section / work done elsewhere / error). -/

inductive LockResult where
  | aquired
  | locked
  | noent
deriving DecidableEq, Repr

inductive LWRet where
  | lwTrue
  | lwFalse
  | lwFailure
deriving DecidableEq, Repr

/-- Observable outcome of one `mapcache_lock_or_wait_for_resource` call: the
return code, whether `mapcache_unlock_resource` was invoked, whether the
"deleting a possibly stale lock" message was logged, and how many
`apr_sleep` / `ping_lock` calls were made. -/
structure LWOut where
  ret : LWRet
  released : Bool
  loggedStale : Bool
  sleeps : Nat
  pings : Nat
deriving DecidableEq, Repr

/-- The wait loop of `mapcache_lock_or_wait_for_resource`. Each loop iteration
first reads the elapsed wall-clock milliseconds (`waited`) and then, when the
timeout has not yet expired, sleeps and pings. The external clock and the
ping answers are supplied as the observation list `obs` (one pair per
iteration); `none` means the supplied observations ran out with the loop
still going. `timeoutMs` is `locker->timeout * 1000`. -/
def lockWaitLoop (timeoutMs : Nat) : List (Nat × LockResult) → Option LWOut
  | [] => none
  | (waited, ping) :: rest =>
    if timeoutMs < waited then
      some { ret := .lwFalse, released := true, loggedStale := true,
             sleeps := 0, pings := 0 }
    else
      match ping with
      | .noent =>
        some { ret := .lwFalse, released := false, loggedStale := false,
               sleeps := 1, pings := 1 }
      | _ =>
        (lockWaitLoop timeoutMs rest).map fun o =>
          { o with sleeps := o.sleeps + 1, pings := o.pings + 1 }

/-- Shallow embedding of `mapcache_lock_or_wait_for_resource`: first
`locker->aquire_lock` runs (returning `acquireRes` and possibly raising a
context error, `acquireErr`); a context error returns MAPCACHE_FAILURE at
once, MAPCACHE_LOCK_AQUIRED returns MAPCACHE_TRUE, anything else enters the
wait loop. -/
def mapcache_lock_or_wait_for_resource (acquireRes : LockResult)
    (acquireErr : Bool) (timeoutMs : Nat)
    (obs : List (Nat × LockResult)) : Option LWOut :=
  if acquireErr then
    some { ret := .lwFailure, released := false, loggedStale := false,
           sleeps := 0, pings := 0 }
  else if acquireRes = .aquired then
    some { ret := .lwTrue, released := false, loggedStale := false,
           sleeps := 0, pings := 0 }
  else
    lockWaitLoop timeoutMs obs

/-! ## Section 3: canonicalized resource names

`lock_filename_for_resource` (disk locker) and `memcache_key_for_resource`
(memcache locker) both rewrite the resource string in place before
concatenating it into a name; strings are embedded as `List Char`. -/

/-- Characters the disk locker's `lock_filename_for_resource` replaces by
`'#'`: space, slash, tilde, dot. -/
def diskReplacedChars : List Char := [' ', '/', '~', '.']

/-- Characters the memcache locker's `memcache_key_for_resource` replaces by
`'#'`: space, slash, tilde, dot, CR, LF, TAB, FF (\x0c), ESC (\x1b),
BEL (\x07), BS (\x08). -/
def memcacheReplacedChars : List Char :=
  [' ', '/', '~', '.', '\r', '\n', '\t',
   Char.ofNat 0x0c, Char.ofNat 0x1b, Char.ofNat 0x07, Char.ofNat 0x08]

/-- The in-place rewrite loop of `lock_filename_for_resource`. -/
def diskCanonicalize (resource : List Char) : List Char :=
  resource.map fun c => if c ∈ diskReplacedChars then '#' else c

/-- The in-place rewrite loop of `memcache_key_for_resource`. -/
def memcacheCanonicalize (resource : List Char) : List Char :=
  resource.map fun c => if c ∈ memcacheReplacedChars then '#' else c

/-- The `MAPCACHE_LOCKFILE_PREFIX` constant. -/
def lockfileTag : List Char := "_gc_lock".toList

/-- Shallow embedding of `lock_filename_for_resource`:
`apr_psprintf("%s/_gc_lock%s.lck", ldisk->dir, saferes)`. -/
def lock_filename_for_resource (dir resource : List Char) : List Char :=
  dir ++ '/' :: lockfileTag ++ diskCanonicalize resource ++ ".lck".toList

/-- Shallow embedding of `memcache_key_for_resource`:
`apr_psprintf("%s_gc_lock%s.lck", lm->key_prefix?:"", saferes)`; `kpfx` is the
configured key prefix (already defaulted to the empty string when absent). -/
def memcache_key_for_resource (kpfx resource : List Char) : List Char :=
  kpfx ++ lockfileTag ++ memcacheCanonicalize resource ++ ".lck".toList

/-! ## Section 4: the fallback locker

`mapcache_locker_fallback_aquire_lock` walks its children with the error
ledger's speculative push/pop protocol. The ledger is a list of error values
(`pop_errors` empties it into a saved slot, `clear_errors` empties it,
`push_errors` appends the saved errors back). Each child locker is summarized,
for the fixed resource, by the result its `aquire_lock` returns, the error it
raises (if any), the opaque token it writes through the `lock` out-pointer,
and an identity used to check dispatch. -/

structure ChildLocker where
  result : LockResult
  err : Option Nat
  token : Nat
  rid : Nat
deriving DecidableEq, Repr

instance : Inhabited ChildLocker := ⟨⟨.noent, none, 0, 0⟩⟩

/-- Embedding of `struct mapcache_locker_fallback_lock`: the child that actually acquired
(`none` until a child succeeds — `apr_pcalloc` zero fill) and the opaque lock
last written by a child's `aquire_lock`. -/
structure FallbackLock where
  owner : Option Nat
  lock : Option Nat
deriving DecidableEq, Repr

/-- Output of `mapcache_locker_fallback_aquire_lock`: return code, final
`fallback_lock` state and final error ledger. -/
structure FAcqOut where
  ret : LockResult
  flock : FallbackLock
  errs : List Nat
deriving DecidableEq, Repr

/-- The child loop of `mapcache_locker_fallback_aquire_lock`. `saved` is the
ledger content moved aside by `pop_errors` at the head of each iteration (the
ledger as it was on entry, since every iteration restores it with
`push_errors`). On a child whose aquire raises no error the child is recorded
as owner and its result returned; on an error the error is cleared when a
later child remains, while the last child's error survives `push_errors` and
the loop falls through to MAPCACHE_LOCK_NOENT. -/
def fallbackAcquireLoop (saved : List Nat) : List ChildLocker → FAcqOut
  | [] => { ret := .noent, flock := ⟨none, none⟩, errs := saved }
  | c :: rest =>
    match c.err with
    | none =>
      { ret := c.result, flock := ⟨some c.rid, some c.token⟩, errs := saved }
    | some e =>
      if rest.isEmpty then
        { ret := .noent, flock := ⟨none, some c.token⟩, errs := e :: saved }
      else
        fallbackAcquireLoop saved rest

/-- Shallow embedding of `mapcache_locker_fallback_aquire_lock`; `ctx0` is the
error ledger on entry. -/
def mapcache_locker_fallback_aquire_lock (ctx0 : List Nat)
    (children : List ChildLocker) : FAcqOut :=
  fallbackAcquireLoop ctx0 children

/-- Shallow embedding of `mapcache_locker_fallback_release_lock`: dispatches
`release_lock` to `flock->locker` with `flock->lock`; the value returned is
the (child identity, token) pair that receives the call. -/
def mapcache_locker_fallback_release_lock (flock : FallbackLock) :
    Option (Nat × Nat) :=
  match flock.owner, flock.lock with
  | some r, some t => some (r, t)
  | _, _ => none

/-- Shallow embedding of `mapcache_locker_fallback_ping_lock`: same dispatch
as release. -/
def mapcache_locker_fallback_ping_lock (flock : FallbackLock) :
    Option (Nat × Nat) :=
  match flock.owner, flock.lock with
  | some r, some t => some (r, t)
  | _, _ => none

/-! ## Section 5: apache server configuration create / merge

`mapcache_server_cfg` without the alias array (aliases are appended on merge
and carry no is-set logic). -/

structure ServerCfg where
  cp_min : Int
  cp_min_is_set : Bool
  cp_smax : Int
  cp_smax_is_set : Bool
  cp_hmax : Int
  cp_hmax_is_set : Bool
  cp_ttl : Int
  cp_ttl_is_set : Bool
  cp_sharing : Int
  cp_sharing_is_set : Bool
deriving DecidableEq, Repr

/-- Shallow embedding of `mod_mapcache_create_server_conf`: defaults
min=1, smax=5, hmax=200, ttl=60, sharing=0, every is-set bit clear. -/
def mod_mapcache_create_server_conf : ServerCfg :=
  { cp_min := 1, cp_min_is_set := false,
    cp_smax := 5, cp_smax_is_set := false,
    cp_hmax := 200, cp_hmax_is_set := false,
    cp_ttl := 60, cp_ttl_is_set := false,
    cp_sharing := 0, cp_sharing_is_set := false }

/-- The `mapcache_server_cfg` produced by `apr_pcalloc` inside
`mod_mapcache_merge_server_conf`: all fields zero. -/
def zeroServerCfg : ServerCfg :=
  { cp_min := 0, cp_min_is_set := false,
    cp_smax := 0, cp_smax_is_set := false,
    cp_hmax := 0, cp_hmax_is_set := false,
    cp_ttl := 0, cp_ttl_is_set := false,
    cp_sharing := 0, cp_sharing_is_set := false }

/-- Shallow embedding of `mod_mapcache_merge_server_conf`. Note that the C
function reads the fallback values and is-set bits from the freshly
`apr_pcalloc`'d `cfg` (all zero), not from `base`: `base` only contributes
its alias array. The translation keeps that behavior verbatim. -/
def mod_mapcache_merge_server_conf (base vhost : ServerCfg) : ServerCfg :=
  let cfg := zeroServerCfg
  let _ := base
  { cp_min := if vhost.cp_min_is_set then vhost.cp_min else cfg.cp_min,
    cp_smax := if vhost.cp_smax_is_set then vhost.cp_smax else cfg.cp_smax,
    cp_hmax := if vhost.cp_hmax_is_set then vhost.cp_hmax else cfg.cp_hmax,
    cp_ttl := if vhost.cp_ttl_is_set then vhost.cp_ttl else cfg.cp_ttl,
    cp_sharing :=
      if vhost.cp_sharing_is_set then vhost.cp_sharing else cfg.cp_sharing,
    cp_min_is_set := vhost.cp_min_is_set || cfg.cp_min_is_set,
    cp_smax_is_set := vhost.cp_smax_is_set || cfg.cp_smax_is_set,
    cp_hmax_is_set := vhost.cp_hmax_is_set || cfg.cp_hmax_is_set,
    cp_ttl_is_set := vhost.cp_ttl_is_set || cfg.cp_ttl_is_set,
    cp_sharing_is_set := vhost.cp_sharing_is_set || cfg.cp_sharing_is_set }

/-- What claim C6 (and spec 4.H) says the merge should produce: the vhost
value where its bit is set, the base value otherwise, bits or-ed. Used only
to compare against the code's merge. -/
def specMergeServerConf (base vhost : ServerCfg) : ServerCfg :=
  { cp_min := if vhost.cp_min_is_set then vhost.cp_min else base.cp_min,
    cp_smax := if vhost.cp_smax_is_set then vhost.cp_smax else base.cp_smax,
    cp_hmax := if vhost.cp_hmax_is_set then vhost.cp_hmax else base.cp_hmax,
    cp_ttl := if vhost.cp_ttl_is_set then vhost.cp_ttl else base.cp_ttl,
    cp_sharing :=
      if vhost.cp_sharing_is_set then vhost.cp_sharing else base.cp_sharing,
    cp_min_is_set := vhost.cp_min_is_set || base.cp_min_is_set,
    cp_smax_is_set := vhost.cp_smax_is_set || base.cp_smax_is_set,
    cp_hmax_is_set := vhost.cp_hmax_is_set || base.cp_hmax_is_set,
    cp_ttl_is_set := vhost.cp_ttl_is_set || base.cp_ttl_is_set,
    cp_sharing_is_set := vhost.cp_sharing_is_set || base.cp_sharing_is_set }

/-! ## Section 6: proxy request header forwarding

The MAPCACHE_REQUEST_PROXY branch of `mod_mapcache_request_handler`. An
`apr_table_t` is embedded as an association list with `apr_table_set`
replace-or-append semantics and `apr_table_get` lookup. -/

abbrev HTable := List (String × String)

/-- Embedding of `apr_table_get`. -/
def tget : HTable → String → Option String
  | [], _ => none
  | (k1, v1) :: rest, k => if k1 = k then some v1 else tget rest k

/-- Embedding of `apr_table_set` (replace an existing key, else append). -/
def tset : HTable → String → String → HTable
  | [], k, v => [(k, v)]
  | (k1, v1) :: rest, k, v =>
    if k1 = k then (k, v) :: rest else (k1, v1) :: tset rest k v

inductive HttpMethod where
  | get
  | post
deriving DecidableEq, Repr

/-- The header rewriting performed inside the `r->method_number == M_POST`
block: set Content-Type from the request, then append the client IP to
X-Forwarded-For, the inbound Host to X-Forwarded-Host (only when a Host
header exists), and the serving host name to X-Forwarded-Server
(`apr_psprintf("%s, %s", old, new)` appends). -/
def proxyForwardHeaders (headersIn : HTable) (clientIp serverName
    contentType : String) (h0 : HTable) : HTable :=
  let h1 := tset h0 "Content-Type" contentType
  let h2 :=
    match tget headersIn "X-Forwarded-For" with
    | some buf => tset h1 "X-Forwarded-For" (buf ++ ", " ++ clientIp)
    | none => tset h1 "X-Forwarded-For" clientIp
  let h3 :=
    match tget headersIn "Host" with
    | some host =>
      match tget headersIn "X-Forwarded-Host" with
      | some buf2 => tset h2 "X-Forwarded-Host" (buf2 ++ ", " ++ host)
      | none => tset h2 "X-Forwarded-Host" host
    | none => h2
  match tget headersIn "X-Forwarded-Server" with
  | some buf => tset h3 "X-Forwarded-Server" (buf ++ ", " ++ serverName)
  | none => tset h3 "X-Forwarded-Server" serverName

/-- Shallow embedding of the proxy branch of `mod_mapcache_request_handler`
as far as `req_proxy->headers` is concerned: the whole header block (body
reading aside) only runs when the request method is POST; on GET the headers
table is handed to `mapcache_core_proxy_request` untouched. -/
def proxyRequestHeaders (method : HttpMethod) (headersIn : HTable)
    (clientIp serverName contentType : String) (h0 : HTable) : HTable :=
  match method with
  | .post => proxyForwardHeaders headersIn clientIp serverName contentType h0
  | .get => h0

/-! ## Section 7: the riak cache backend (`cache_riak2.c`, riack > 1.4 copy)

`riack_get_ext` either fails (after the retry loop, surfacing a 500 error and
MAPCACHE_FAILURE) or yields an object carrying a list of content entries,
each bytes plus a content type. -/

structure RiakContent where
  data : List Nat
  ctype : String
deriving DecidableEq, Repr

structure RiakObj where
  contents : List RiakContent
deriving DecidableEq, Repr

inductive RiakFetch where
  | err (code : Nat)
  | ok (obj : RiakObj)
deriving DecidableEq, Repr

/-- The tile payload after a riak get: either the blank tile produced by
`mapcache_empty_png_decode` (grid tile size plus the RGBA color bytes) or a
verbatim copy of the stored bytes. -/
inductive TilePayload where
  | blank (w h : Nat) (rgba : List Nat)
  | stored (bytes : List Nat)
deriving DecidableEq, Repr

/-- Modelled from the spec: `mapcache_empty_png_decode` (not among these
sources) expands the 5-byte `'#' + RGBA` sentinel back to a blank tile of the
grid's tile size, setting `tile->nodata`. The payload records the size and
the RGBA bytes after the leading `'#'`. -/
def mapcache_empty_png_decode (w h : Nat) (buf : List Nat) : TilePayload :=
  .blank w h (buf.drop 1)

/-- Output of `_mapcache_cache_riak_get`: return code, context error flag,
`tile->encoded_data` and `tile->nodata`. -/
structure RiakGetOut where
  ret : CacheGetResult
  ctxError : Bool
  encoded : Option TilePayload
  nodata : Bool
deriving DecidableEq, Repr

/-- ASCII code of the blank sentinel byte `'#'`. -/
def hashByte : Nat := 35

/-- Shallow embedding of `_mapcache_cache_riak_get` from the point where the
key, bucket and connection are in hand: a persistent riack error surfaces as
MAPCACHE_FAILURE with a context error; an object with no content entry or a
zero-length first entry returns MAPCACHE_CACHE_MISS silently; a 5-byte entry
starting with `'#'` typed image/mapcache-rgba is expanded by
`mapcache_empty_png_decode` to the grid's `tile_sx` by `tile_sy`; anything
else is copied verbatim. -/
def _mapcache_cache_riak_get (tileSx tileSy : Nat) (fetch : RiakFetch) :
    RiakGetOut :=
  match fetch with
  | .err _ =>
    { ret := .failure, ctxError := true, encoded := none, nodata := false }
  | .ok obj =>
    match obj.contents with
    | [] =>
      { ret := .miss, ctxError := false, encoded := none, nodata := false }
    | c :: _ =>
      if c.data.length = 0 then
        { ret := .miss, ctxError := false, encoded := none, nodata := false }
      else if c.data.headD 0 = hashByte ∧ c.data.length = 5 ∧
          c.ctype = "image/mapcache-rgba" then
        { ret := .success, ctxError := false,
          encoded := some (mapcache_empty_png_decode tileSx tileSy c.data),
          nodata := true }
      else
        { ret := .success, ctxError := false,
          encoded := some (.stored c.data), nodata := false }

/-- Shallow embedding of `_mapcache_cache_riak_has_tile` from the same point:
(returned boolean, context error flag). A persistent riack error sets a 500
error and returns MAPCACHE_FALSE; an object with no content entry or a
zero-length first entry is MAPCACHE_FALSE without error. -/
def _mapcache_cache_riak_has_tile (fetch : RiakFetch) : Bool × Bool :=
  match fetch with
  | .err _ => (false, true)
  | .ok obj =>
    match obj.contents with
    | [] => (false, false)
    | c :: _ => (decide (c.data.length ≠ 0), false)

/-- A decoded raster (`tile->raw_image`): pixel dimensions and the pixel
buffer grouped as one RGBA byte quadruple per pixel; `img->data` is the
flattened buffer. -/
structure RawImage where
  w : Nat
  h : Nat
  pixels : List (List Nat)
deriving DecidableEq, Repr

/-- Modelled from the spec: `mapcache_image_blank_color` (not among these
sources) reports whether the decoded raw image is one uniform color, i.e.
every pixel equals the first. -/
def mapcache_image_blank_color (img : RawImage) : Bool :=
  img.pixels.all fun p => p = img.pixels.headD []

/-- What `_mapcache_cache_riak_set` hands to `riack_put_ext`: the stored
bytes and the content type string (`none` when no type could be computed). -/
structure RiakStored where
  data : List Nat
  ctype : Option String
deriving DecidableEq, Repr

/-- Shallow embedding of the payload preparation of `_mapcache_cache_riak_set`
(the riak2 copy with blank detection). `raw` is `tile->raw_image` (the claim's
premise has it decoded; when absent the code would call
`mapcache_imageio_decode`, whose output is supplied as `decoded`), `encoded`
is `tile->encoded_data`, `formatWrite` / `formatMime` / `sniffed` stand for
the external format writer, its MIME type and `mapcache_imageio_header_sniff`.
With `detect_blank` set and a uniform raw image the stored value is the
5-byte `'#' + RGBA` sentinel typed image/mapcache-rgba, where the RGBA bytes
are the first 4 bytes of `raw->data` (`memcpy(buf+1, raw_image->data, 4)`). -/
def _mapcache_cache_riak_set (detect_blank : Bool) (raw : Option RawImage)
    (decoded : RawImage) (encoded : Option (List Nat))
    (formatWrite : List Nat) (formatMime : Option String)
    (sniffed : Option String) : RiakStored :=
  let rawImg := raw.getD decoded
  let blankOut :
      Option (List Nat) × Option String :=
    if detect_blank then
      if mapcache_image_blank_color rawImg then
        (some (hashByte :: (rawImg.pixels.flatten.take 4)),
         some "image/mapcache-rgba")
      else (encoded, none)
    else (encoded, none)
  let data := blankOut.1.getD formatWrite
  let ctype :=
    match blankOut.2 with
    | some t => some t
    | none =>
      match formatMime with
      | some m => some m
      | none => sniffed
  { data := data, ctype := ctype }

/-! ## Helper lemmas -/

theorem lockWaitLoop_observations (timeoutMs : Nat)
    (pre : List (Nat × LockResult)) (w : Nat) (p : LockResult)
    (rest : List (Nat × LockResult))
    (hpre : ∀ x ∈ pre, x.1 ≤ timeoutMs ∧ x.2 ≠ LockResult.noent) :
    (timeoutMs < w →
      lockWaitLoop timeoutMs (pre ++ (w, p) :: rest) =
        some { ret := .lwFalse, released := true, loggedStale := true,
               sleeps := pre.length, pings := pre.length }) ∧
    (w ≤ timeoutMs → p = .noent →
      lockWaitLoop timeoutMs (pre ++ (w, p) :: rest) =
        some { ret := .lwFalse, released := false, loggedStale := false,
               sleeps := pre.length + 1, pings := pre.length + 1 }) := by
  induction pre with
  | nil =>
    constructor
    · intro hw
      simp [lockWaitLoop, hw]
    · intro hw hp
      have hnot : ¬ timeoutMs < w := Nat.not_lt.mpr hw
      subst hp
      simp [lockWaitLoop, hnot]
  | cons a pre ih =>
    have ha := hpre a (List.mem_cons_self a pre)
    have ihpre : ∀ x ∈ pre, x.1 ≤ timeoutMs ∧ x.2 ≠ LockResult.noent :=
      fun x hx => hpre x (List.mem_cons_of_mem a hx)
    have ih2 := ih ihpre
    have hnot : ¬ timeoutMs < a.1 := Nat.not_lt.mpr ha.1
    constructor
    · intro hw
      have hrec := ih2.1 hw
      cases hp : a.2 with
      | noent => exact absurd hp ha.2
      | aquired =>
        obtain ⟨a1, a2⟩ := a
        simp only at hp hnot
        subst hp
        simp [lockWaitLoop, hnot, hrec]
      | locked =>
        obtain ⟨a1, a2⟩ := a
        simp only at hp hnot
        subst hp
        simp [lockWaitLoop, hnot, hrec]
    · intro hw hp
      have hrec := ih2.2 hw hp
      cases hp2 : a.2 with
      | noent => exact absurd hp2 ha.2
      | aquired =>
        obtain ⟨a1, a2⟩ := a
        simp only at hp2 hnot
        subst hp2
        simp [lockWaitLoop, hnot, hrec]
      | locked =>
        obtain ⟨a1, a2⟩ := a
        simp only at hp2 hnot
        subst hp2
        simp [lockWaitLoop, hnot, hrec]

theorem tierAt_lt (l : List Tier) (i : Nat) (h : i < l.length) :
    tierAt l i = l[i] := by
  simp [tierAt, List.getD_eq_getElem?_getD, List.getElem?_eq_getElem h]

theorem tierAt_set_self (l : List Tier) (j : Nat) (t : Tier)
    (h : j < l.length) : tierAt (l.set j t) j = t := by
  simp [tierAt, List.getD_eq_getElem?_getD, List.getElem?_set_self h]

theorem tierAt_set_ne (l : List Tier) (i j : Nat) (t : Tier) (h : j ≠ i) :
    tierAt (l.set j t) i = tierAt l i := by
  simp [tierAt, List.getD_eq_getElem?_getD, List.getElem?_set_ne h]

theorem promoteFrom_length (d : Bytes) :
    ∀ (j : Nat) (tiers : List Tier),
      (promoteFrom d tiers j).1.length = tiers.length := by
  intro j
  induction j with
  | zero => intro tiers; simp [promoteFrom]
  | succ j ih => intro tiers; simp [promoteFrom, ih]

theorem promoteFrom_events (d : Bytes) :
    ∀ (j : Nat) (tiers : List Tier),
      (promoteFrom d tiers j).2 = (List.range (j+1)).reverse := by
  intro j
  induction j with
  | zero => intro tiers; simp [promoteFrom, List.range_succ]
  | succ j ih =>
    intro tiers
    simp [promoteFrom, ih, List.range_succ]

theorem promoteFrom_tierAt_gt (d : Bytes) :
    ∀ (j : Nat) (tiers : List Tier) (i : Nat), j < i →
      tierAt (promoteFrom d tiers j).1 i = tierAt tiers i := by
  intro j
  induction j with
  | zero =>
    intro tiers i h
    simp only [promoteFrom]
    exact tierAt_set_ne tiers i 0 _ (by omega)
  | succ j ih =>
    intro tiers i h
    simp only [promoteFrom]
    rw [ih _ i (by omega)]
    exact tierAt_set_ne tiers i (j+1) _ (by omega)

theorem promoteFrom_tierAt_le (d : Bytes) :
    ∀ (j : Nat) (tiers : List Tier) (i : Nat), j < tiers.length → i ≤ j →
      tierAt (promoteFrom d tiers j).1 i = ((tierAt tiers i).setTile d).1 := by
  intro j
  induction j with
  | zero =>
    intro tiers i hj hi
    have hi0 : i = 0 := Nat.le_zero.mp hi
    subst hi0
    simp only [promoteFrom]
    exact tierAt_set_self tiers 0 _ hj
  | succ j ih =>
    intro tiers i hj hi
    have hjlen : (j : Nat) + 1 < tiers.length := hj
    rcases Nat.lt_or_ge i (j+1) with hlt | hge
    · have hij : i ≤ j := Nat.lt_succ_iff.mp hlt
      simp only [promoteFrom]
      rw [ih _ i (by simpa using Nat.lt_of_succ_lt hjlen) hij]
      rw [tierAt_set_ne tiers i (j+1) _ (by omega)]
    · have hi1 : i = j + 1 := Nat.le_antisymm hi hge
      subst hi1
      simp only [promoteFrom]
      rw [promoteFrom_tierAt_gt d j _ (j+1) (by omega)]
      exact tierAt_set_self tiers (j+1) _ hjlen

theorem mtDescend_hits (tiers : List Tier) (k : Nat) (d : Bytes)
    (hk : k < tiers.length)
    (hkf : (tierAt tiers k).getFails = false)
    (hkc : (tierAt tiers k).contents = some d) :
    ∀ (rest : List Tier) (i : Nat) (e : Bool), i ≤ k →
      rest = tiers.drop i →
      (∀ m, i ≤ m → m < k → (tierAt tiers m).contents = none) →
      mtDescend tiers i e rest =
        { ret := .success, tiers := (promoteFrom d tiers (k-1)).1,
          ctxError := false, tileData := some d,
          setEvents := (promoteFrom d tiers (k-1)).2 } := by
  intro rest
  induction rest with
  | nil =>
    intro i e hik hdrop hmid
    exfalso
    have hlen := congrArg List.length hdrop
    simp [List.length_drop] at hlen
    omega
  | cons t rest2 ih =>
    intro i e hik hdrop hmid
    have hi : i < tiers.length := by
      have hlen := congrArg List.length hdrop
      simp [List.length_drop] at hlen
      omega
    rw [List.drop_eq_getElem_cons hi] at hdrop
    injection hdrop with ht hrest2
    rcases Nat.lt_or_ge i k with hik2 | hik2
    · have htnone : t.contents = none := by
        rw [ht, ← tierAt_lt tiers i hi]
        exact hmid i le_rfl hik2
      have hrec : ∀ e2, mtDescend tiers (i+1) e2 rest2 = _ := fun e2 =>
        ih (i+1) e2 (by omega) hrest2 (fun m hm hmk => hmid m (by omega) hmk)
      cases hgf : t.getFails with
      | true => simpa [mtDescend, hgf, htnone] using hrec true
      | false => simpa [mtDescend, hgf, htnone] using hrec e
    · have hik3 : i = k := by omega
      subst hik3
      have htf : t.getFails = false := by
        rw [ht, ← tierAt_lt tiers i hi]
        exact hkf
      have htc : t.contents = some d := by
        rw [ht, ← tierAt_lt tiers i hi]
        exact hkc
      simp [mtDescend, htf, htc]

theorem mtDescend_ret_characterization (tiers : List Tier) :
    ∀ (rest : List Tier) (i : Nat) (e : Bool), rest = tiers.drop i →
      (mtDescend tiers i e rest).ret ≠ .failure ∧
      ((mtDescend tiers i e rest).ret = .miss ↔
        ∀ j, i ≤ j → j < tiers.length →
          (tierAt tiers j).getResult ≠ .success) := by
  intro rest
  induction rest with
  | nil =>
    intro i e hdrop
    have hlen := congrArg List.length hdrop
    simp [List.length_drop] at hlen
    constructor
    · simp [mtDescend]
    · simp only [mtDescend]
      constructor
      · intro _ j hij hjl
        exfalso
        omega
      · intro _
        trivial
  | cons t rest2 ih =>
    intro i e hdrop
    have hi : i < tiers.length := by
      have hlen := congrArg List.length hdrop
      simp [List.length_drop] at hlen
      omega
    rw [List.drop_eq_getElem_cons hi] at hdrop
    injection hdrop with ht hrest2
    have hgr : (tierAt tiers i).getResult = t.getResult := by
      rw [tierAt_lt tiers i hi, ← ht]
    cases hgf : t.getFails with
    | true =>
      have hres : t.getResult = .failure := by simp [Tier.getResult, hgf]
      have ih2 := ih (i+1) true hrest2
      constructor
      · simpa [mtDescend, hgf] using ih2.1
      · have hstep : (mtDescend tiers i e (t :: rest2)).ret =
            (mtDescend tiers (i+1) true rest2).ret := by
          simp [mtDescend, hgf]
        rw [hstep, ih2.2]
        constructor
        · intro h j hij hjl
          rcases Nat.eq_or_lt_of_le hij with heq | hlt
          · rw [← heq, hgr, hres]
            simp
          · exact h j hlt hjl
        · intro h j hij hjl
          exact h j (by omega) hjl
    | false =>
      cases hc : t.contents with
      | some dd =>
        have hres : t.getResult = .success := by
          simp [Tier.getResult, hgf, hc]
        constructor
        · simp [mtDescend, hgf, hc]
        · constructor
          · intro h
            simp [mtDescend, hgf, hc] at h
          · intro h
            exfalso
            exact (h i le_rfl hi) (by rw [hgr, hres])
      | none =>
        have hres : t.getResult = .miss := by simp [Tier.getResult, hgf, hc]
        have ih2 := ih (i+1) e hrest2
        constructor
        · simpa [mtDescend, hgf, hc] using ih2.1
        · have hstep : (mtDescend tiers i e (t :: rest2)).ret =
              (mtDescend tiers (i+1) e rest2).ret := by
            simp [mtDescend, hgf, hc]
          rw [hstep, ih2.2]
          constructor
          · intro h j hij hjl
            rcases Nat.eq_or_lt_of_le hij with heq | hlt
            · rw [← heq, hgr, hres]
              simp
            · exact h j hlt hjl
          · intro h j hij hjl
            exact h j (by omega) hjl

/-! ## Claim theorems -/

/-- Claim C1 counterexample: in a two-tier cache whose tile is present only
in tier 1 but whose tier-0 `set` raises an error, the multitier get still
returns Success, invokes the promotion set on tier 0 (event list [0]) and
clears the error — yet afterwards tier 0 does NOT contain the tile, refuting
the claim's "after the call every tier i<k contains t". -/
theorem multitier_promotion_not_guaranteed :
    (multitierGet [⟨none, false, true⟩, ⟨some [7], false, false⟩]).ret =
      .success ∧
    (multitierGet [⟨none, false, true⟩,
      ⟨some [7], false, false⟩]).setEvents = [0] ∧
    (multitierGet [⟨none, false, true⟩,
      ⟨some [7], false, false⟩]).ctxError = false ∧
    (tierAt (multitierGet [⟨none, false, true⟩,
      ⟨some [7], false, false⟩]).tiers 0).contents = none := by
  decide

/-- Claim C1 as amended: with the tile's bytes present only in tier k (k>0)
and tiers 0 and k answering their `get` without backend failure, one
multitier get returns Success with the tile's bytes, invokes `set` on every
tier i<k in reverse order (tier k-1 first, tier 0 last), clears any error
those sets raise (the context ends error-free), and afterwards every tier
i<k WHOSE SET DID NOT FAIL contains the tile's bytes (a tier whose set
errored is silently left without the tile). -/
theorem multitier_promotion_amended (tiers : List Tier) (k : Nat) (d : Bytes)
    (hk : k < tiers.length) (hk0 : 0 < k)
    (h0f : (tierAt tiers 0).getFails = false)
    (hkf : (tierAt tiers k).getFails = false)
    (hkc : (tierAt tiers k).contents = some d)
    (honly : ∀ i, i < tiers.length → i ≠ k →
      (tierAt tiers i).contents = none) :
    (multitierGet tiers).ret = .success ∧
    (multitierGet tiers).tileData = some d ∧
    (multitierGet tiers).setEvents = (List.range k).reverse ∧
    (multitierGet tiers).ctxError = false ∧
    ∀ i, i < k → (tierAt tiers i).setFails = false →
      (tierAt (multitierGet tiers).tiers i).contents = some d := by
  have h0c : (tierAt tiers 0).contents = none :=
    honly 0 (by omega) (by omega)
  have hmt : multitierGet tiers = mtDescend tiers 1 false (tiers.drop 1) := by
    simp [multitierGet, h0f, h0c]
  have hdes := mtDescend_hits tiers k d hk hkf hkc (tiers.drop 1) 1 false
    (by omega) rfl (fun m hm hmk => honly m (by omega) (by omega))
  rw [hmt, hdes]
  refine ⟨rfl, rfl, ?_, rfl, ?_⟩
  · show (promoteFrom d tiers (k-1)).2 = (List.range k).reverse
    rw [promoteFrom_events]
    have hkk : k - 1 + 1 = k := by omega
    rw [hkk]
  · intro i hik hsf
    show (tierAt (promoteFrom d tiers (k-1)).1 i).contents = some d
    rw [promoteFrom_tierAt_le d (k-1) tiers i (by omega) (by omega)]
    simp [Tier.setTile, hsf]

/-- Witness for the amended C1: two healthy tiers, bytes [7] only in
tier 1. -/
theorem multitier_promotion_amended_witness :
    (multitierGet [⟨none, false, false⟩, ⟨some [7], false, false⟩]).ret =
      .success ∧
    (multitierGet [⟨none, false, false⟩,
      ⟨some [7], false, false⟩]).tileData = some [7] ∧
    (multitierGet [⟨none, false, false⟩,
      ⟨some [7], false, false⟩]).setEvents = (List.range 1).reverse ∧
    (multitierGet [⟨none, false, false⟩,
      ⟨some [7], false, false⟩]).ctxError = false ∧
    (tierAt (multitierGet [⟨none, false, false⟩,
      ⟨some [7], false, false⟩]).tiers 0).contents =
      some [7] := by
  have h := multitier_promotion_amended
    [⟨none, false, false⟩, ⟨some [7], false, false⟩] 1 [7]
    (by decide) (by decide) (by decide) (by decide) (by decide)
    (by
      intro i hi hne
      have hi2 : i < 2 := by simpa using hi
      interval_cases i
      · decide
      · exact absurd rfl hne)
  exact ⟨h.1, h.2.1, h.2.2.1, h.2.2.2.1,
    h.2.2.2.2 0 (by decide) (by decide)⟩

/-- Claim C2 counterexample: a two-tier cache where tier 0 misses and tier 1
fails its get: tier 1 returned Failure, yet the multitier get returns Miss,
not Failure (only the tier's context error lingers). -/
theorem multitier_deep_failure_not_surfaced :
    Tier.getResult ⟨none, true, false⟩ = .failure ∧
    (multitierGet [⟨none, false, false⟩, ⟨none, true, false⟩]).ret = .miss ∧
    (multitierGet [⟨none, false, false⟩, ⟨none, true, false⟩]).ret ≠
      .failure ∧
    (multitierGet [⟨none, false, false⟩, ⟨none, true, false⟩]).ctxError =
      true := by
  decide

/-- Claim C2 as amended: a multitier get returns Failure exactly when tier
0's get returns Failure — a deeper tier's Failure is not surfaced in the
return code (the walk just moves on, leaving only that tier's context
error) — and it returns Miss exactly when tier 0 misses and no deeper tier
returns Success (so also when deeper tiers fail). -/
theorem multitier_failure_miss_amended (tiers : List Tier)
    (hne : 0 < tiers.length) :
    ((multitierGet tiers).ret = .failure ↔
      (tierAt tiers 0).getResult = .failure) ∧
    ((multitierGet tiers).ret = .miss ↔
      ((tierAt tiers 0).getResult = .miss ∧
        ∀ i, 0 < i → i < tiers.length →
          (tierAt tiers i).getResult ≠ .success)) := by
  cases hgf : (tierAt tiers 0).getFails with
  | true =>
    have hres : (tierAt tiers 0).getResult = .failure := by
      simp [Tier.getResult, hgf]
    constructor
    · simp [multitierGet, hgf, hres]
    · simp [multitierGet, hgf, hres]
  | false =>
    cases hc : (tierAt tiers 0).contents with
    | some d =>
      have hres : (tierAt tiers 0).getResult = .success := by
        simp [Tier.getResult, hgf, hc]
      constructor
      · simp [multitierGet, hgf, hc, hres]
      · simp [multitierGet, hgf, hc, hres]
    | none =>
      have hres : (tierAt tiers 0).getResult = .miss := by
        simp [Tier.getResult, hgf, hc]
      have hchar := mtDescend_ret_characterization tiers (tiers.drop 1)
        1 false rfl
      have hmt : multitierGet tiers =
          mtDescend tiers 1 false (tiers.drop 1) := by
        simp [multitierGet, hgf, hc]
      rw [hmt]
      constructor
      · constructor
        · intro h
          exact absurd h hchar.1
        · intro h
          rw [hres] at h
          exact absurd h (by simp)
      · rw [hchar.2, hres]
        constructor
        · intro h
          exact ⟨rfl, fun i h1 h2 => h i h1 h2⟩
        · intro h i h1 h2
          exact h.2 i h1 h2

/-- Witness for the amended C2 at a concrete two-tier cache (tier 0 misses,
tier 1 fails). -/
theorem multitier_failure_miss_amended_witness :
    ((multitierGet [⟨none, false, false⟩, ⟨none, true, false⟩]).ret =
        .failure ↔
      (tierAt [⟨none, false, false⟩, ⟨none, true, false⟩] 0).getResult =
        .failure) ∧
    ((multitierGet [⟨none, false, false⟩, ⟨none, true, false⟩]).ret =
        .miss ↔
      ((tierAt [⟨none, false, false⟩, ⟨none, true, false⟩] 0).getResult =
          .miss ∧
        ∀ i, 0 < i →
          i < ([⟨none, false, false⟩, ⟨none, true, false⟩] :
            List Tier).length →
          (tierAt [⟨none, false, false⟩, ⟨none, true, false⟩] i).getResult ≠
            .success)) :=
  multitier_failure_miss_amended
    [⟨none, false, false⟩, ⟨none, true, false⟩] (by decide)

/-- Claim C3: with the lock held elsewhere (`aquire_lock` answered
MAPCACHE_LOCK_LOCKED without error), `mapcache_lock_or_wait_for_resource`
(a) on an iteration whose elapsed wait exceeds `timeout*1000` milliseconds
releases the possibly stale lock, logs, and returns MAPCACHE_FALSE; and
(b) when instead the iteration's ping answers MAPCACHE_LOCK_NOENT within the
timeout it returns MAPCACHE_FALSE without releasing (the protected work was
done by another worker). `pre` lists the earlier iterations, none of which
timed out or saw NOENT. -/
theorem lock_or_wait_timeout_behavior (timeoutMs : Nat)
    (pre : List (Nat × LockResult)) (w : Nat) (p : LockResult)
    (rest : List (Nat × LockResult))
    (hpre : ∀ x ∈ pre, x.1 ≤ timeoutMs ∧ x.2 ≠ LockResult.noent) :
    (timeoutMs < w →
      mapcache_lock_or_wait_for_resource .locked false timeoutMs
          (pre ++ (w, p) :: rest) =
        some { ret := .lwFalse, released := true, loggedStale := true,
               sleeps := pre.length, pings := pre.length }) ∧
    (w ≤ timeoutMs → p = .noent →
      mapcache_lock_or_wait_for_resource .locked false timeoutMs
          (pre ++ (w, p) :: rest) =
        some { ret := .lwFalse, released := false, loggedStale := false,
               sleeps := pre.length + 1, pings := pre.length + 1 }) := by
  have h := lockWaitLoop_observations timeoutMs pre w p rest hpre
  constructor
  · intro hw
    simpa [mapcache_lock_or_wait_for_resource] using h.1 hw
  · intro hw hp
    simpa [mapcache_lock_or_wait_for_resource] using h.2 hw hp

/-- Witness for C3: timeout 10000 ms; one clean iteration at 5 ms, then a
timeout at 10001 ms (first conjunct) and, on another trace, a NOENT ping at
9000 ms (second conjunct). -/
theorem lock_or_wait_timeout_behavior_witness :
    (mapcache_lock_or_wait_for_resource .locked false 10000
        ([(5, LockResult.locked)] ++ (10001, LockResult.locked) :: []) =
      some { ret := .lwFalse, released := true, loggedStale := true,
             sleeps := 1, pings := 1 }) ∧
    (mapcache_lock_or_wait_for_resource .locked false 10000
        ([(5, LockResult.locked)] ++ (9000, LockResult.noent) :: []) =
      some { ret := .lwFalse, released := false, loggedStale := false,
             sleeps := 2, pings := 2 }) := by
  constructor
  · exact (lock_or_wait_timeout_behavior 10000 [(5, .locked)] 10001 .locked []
      (by intro x hx; simp at hx; subst hx; exact ⟨by omega, by simp⟩)).1
      (by omega)
  · exact (lock_or_wait_timeout_behavior 10000 [(5, .locked)] 9000 .noent []
      (by intro x hx; simp at hx; subst hx; exact ⟨by omega, by simp⟩)).2
      (by omega) rfl

/-- Claim C10: when `aquire_lock` itself raises a context error,
`mapcache_lock_or_wait_for_resource` returns MAPCACHE_FAILURE immediately —
no sleep, no ping, no release — and that code is distinct from both
MAPCACHE_TRUE and MAPCACHE_FALSE. -/
theorem lock_or_wait_acquire_error_failure (acquireRes : LockResult)
    (timeoutMs : Nat) (obs : List (Nat × LockResult)) :
    mapcache_lock_or_wait_for_resource acquireRes true timeoutMs obs =
      some { ret := .lwFailure, released := false, loggedStale := false,
             sleeps := 0, pings := 0 } ∧
    LWRet.lwFailure ≠ LWRet.lwTrue ∧ LWRet.lwFailure ≠ LWRet.lwFalse := by
  refine ⟨?_, by simp, by simp⟩
  simp [mapcache_lock_or_wait_for_resource]

/-- Claim C4 counterexample: the disk locker's `lock_filename_for_resource`
does NOT replace the control characters of the memcache set — for the
resource "a\tb" the generated lock file name still contains a TAB, which is
in the claimed forbidden set. -/
theorem disk_lock_name_keeps_control_chars :
    '\t' ∈ lock_filename_for_resource "/tmp".toList "a\tb".toList ∧
    '\t' ∈ memcacheReplacedChars := by
  constructor
  · show '\t' ∈ "/tmp".toList ++ '/' :: lockfileTag ++
      diskCanonicalize "a\tb".toList ++ ".lck".toList
    decide
  · decide

/-- Claim C4 as amended: the memcache lock key's canonicalized part contains
no character of the full replaced set {space, '/', '~', '.', CR, LF, TAB, FF,
ESC, BEL, BS}, while the disk lock file's canonicalized part is only
guaranteed free of {space, '/', '~', '.'} (control characters pass through);
the disk lock file name is `<dir>/_gc_lock<canonical>.lck` and the memcache
lock key is `<prefix>_gc_lock<canonical>.lck`. -/
theorem lock_name_canonicalization_amended (dir kpfx resource : List Char) :
    ((diskCanonicalize resource).all
      fun c => decide (c ∉ diskReplacedChars)) = true ∧
    ((memcacheCanonicalize resource).all
      fun c => decide (c ∉ memcacheReplacedChars)) = true ∧
    lock_filename_for_resource dir resource =
      dir ++ '/' :: lockfileTag ++ diskCanonicalize resource ++
        ".lck".toList ∧
    memcache_key_for_resource kpfx resource =
      kpfx ++ lockfileTag ++ memcacheCanonicalize resource ++
        ".lck".toList := by
  refine ⟨?_, ?_, rfl, rfl⟩
  · rw [List.all_eq_true]
    intro c hc
    rw [diskCanonicalize, List.mem_map] at hc
    obtain ⟨c0, _, hc0⟩ := hc
    subst hc0
    by_cases h : c0 ∈ diskReplacedChars
    · simp only [if_pos h]
      decide
    · simp [h]
  · rw [List.all_eq_true]
    intro c hc
    rw [memcacheCanonicalize, List.mem_map] at hc
    obtain ⟨c0, _, hc0⟩ := hc
    subst hc0
    by_cases h : c0 ∈ memcacheReplacedChars
    · simp only [if_pos h]
      decide
    · simp [h]

/-- Claim C6: `mod_mapcache_merge_server_conf` does not fall back to the base
configuration's values or is-set bits — it reads them from a freshly zeroed
struct. Merging two untouched default configurations yields cp_min = 0 where
the claimed merge (and the documented default) gives 1; merging a base whose
cp_min was explicitly set with an untouched vhost yields cp_min = 0 and a
cleared is-set bit where the claimed merge gives 3 and a set bit. -/
theorem merge_server_conf_ignores_base :
    (mod_mapcache_merge_server_conf mod_mapcache_create_server_conf
        mod_mapcache_create_server_conf).cp_min = 0 ∧
    (specMergeServerConf mod_mapcache_create_server_conf
        mod_mapcache_create_server_conf).cp_min = 1 ∧
    mod_mapcache_merge_server_conf mod_mapcache_create_server_conf
        mod_mapcache_create_server_conf ≠
      specMergeServerConf mod_mapcache_create_server_conf
        mod_mapcache_create_server_conf ∧
    (mod_mapcache_merge_server_conf
        { mod_mapcache_create_server_conf with
            cp_min := 3, cp_min_is_set := true }
        mod_mapcache_create_server_conf).cp_min = 0 ∧
    (mod_mapcache_merge_server_conf
        { mod_mapcache_create_server_conf with
            cp_min := 3, cp_min_is_set := true }
        mod_mapcache_create_server_conf).cp_min_is_set = false ∧
    (specMergeServerConf
        { mod_mapcache_create_server_conf with
            cp_min := 3, cp_min_is_set := true }
        mod_mapcache_create_server_conf).cp_min = 3 ∧
    (specMergeServerConf
        { mod_mapcache_create_server_conf with
            cp_min := 3, cp_min_is_set := true }
        mod_mapcache_create_server_conf).cp_min_is_set = true := by
  refine ⟨rfl, rfl, ?_, rfl, rfl, rfl, rfl⟩
  intro h
  have := congrArg ServerCfg.cp_min h
  simp [mod_mapcache_merge_server_conf, specMergeServerConf,
    mod_mapcache_create_server_conf, zeroServerCfg] at this

/-- Claim C9: a riak object that is present but carries no content entry, or
whose first content entry has zero-length data, makes `_mapcache_cache_riak_get`
return MAPCACHE_CACHE_MISS with no context error and no tile data, and makes
`_mapcache_cache_riak_has_tile` return MAPCACHE_FALSE with no context
error. -/
theorem riak_empty_content_miss (tileSx tileSy : Nat) (obj : RiakObj)
    (h : ∀ c ∈ obj.contents.take 1, c.data.length = 0) :
    _mapcache_cache_riak_get tileSx tileSy (.ok obj) =
      { ret := .miss, ctxError := false, encoded := none, nodata := false } ∧
    _mapcache_cache_riak_has_tile (.ok obj) = (false, false) := by
  match hobj : obj.contents with
  | [] =>
    simp [_mapcache_cache_riak_get, _mapcache_cache_riak_has_tile, hobj]
  | c :: rest =>
    have hc : c.data.length = 0 := by
      apply h
      rw [hobj]
      simp
    simp [_mapcache_cache_riak_get, _mapcache_cache_riak_has_tile, hobj, hc]

/-- Witness for C9: a stored object whose single content entry has empty
data. -/
theorem riak_empty_content_miss_witness :
    _mapcache_cache_riak_get 256 256 (.ok ⟨[⟨[], "image/png"⟩]⟩) =
      { ret := .miss, ctxError := false, encoded := none, nodata := false } ∧
    _mapcache_cache_riak_has_tile (.ok ⟨[⟨[], "image/png"⟩]⟩) =
      (false, false) :=
  riak_empty_content_miss 256 256 ⟨[⟨[], "image/png"⟩]⟩ (by decide)

theorem tget_tset_self (t : HTable) (k v : String) :
    tget (tset t k v) k = some v := by
  induction t with
  | nil => simp [tset, tget]
  | cons a t ih =>
    obtain ⟨k1, v1⟩ := a
    by_cases h : k1 = k
    · simp [tset, tget, h]
    · simp [tset, tget, h, ih]

theorem tget_tset_ne (t : HTable) (k v k2 : String) (h : k ≠ k2) :
    tget (tset t k v) k2 = tget t k2 := by
  induction t with
  | nil => simp [tset, tget, h]
  | cons a t ih =>
    obtain ⟨k1, v1⟩ := a
    by_cases h1 : k1 = k
    · subst h1
      simp [tset, tget, h]
    · simp only [tset, if_neg h1, tget]
      by_cases h2 : k1 = k2
      · simp [h2]
      · simp [h2, ih]

/-- Claim C7 counterexample: on a proxied GET request the handler leaves the
forwarded header table untouched — with inbound X-Forwarded-For and Host
headers present, the table handed to `mapcache_core_proxy_request` stays
empty, carrying no X-Forwarded-For at all. -/
theorem proxy_get_headers_untouched :
    proxyRequestHeaders .get
        [("X-Forwarded-For", "198.51.100.7"), ("Host", "maps.example.org")]
        "203.0.113.9" "srv1" "text/xml" [] = [] ∧
    tget (proxyRequestHeaders .get
        [("X-Forwarded-For", "198.51.100.7"), ("Host", "maps.example.org")]
        "203.0.113.9" "srv1" "text/xml" []) "X-Forwarded-For" = none :=
  ⟨rfl, rfl⟩

/-- Claim C7 as amended: only for proxied POST requests does the handler
rewrite the forwarded headers, and there it appends the client IP to any
inbound X-Forwarded-For (else creates it), appends the inbound Host to any
inbound X-Forwarded-Host (only when a Host header exists), appends the
serving host name to any inbound X-Forwarded-Server, and sets Content-Type;
GET requests forward the table untouched. -/
theorem proxy_post_forward_headers (headersIn h0 : HTable)
    (clientIp serverName contentType : String) :
    (tget (proxyRequestHeaders .post headersIn clientIp serverName
        contentType h0) "X-Forwarded-For" =
      some (match tget headersIn "X-Forwarded-For" with
        | some buf => buf ++ ", " ++ clientIp
        | none => clientIp)) ∧
    (tget (proxyRequestHeaders .post headersIn clientIp serverName
        contentType h0) "X-Forwarded-Host" =
      (match tget headersIn "Host", tget headersIn "X-Forwarded-Host" with
        | some host, some buf2 => some (buf2 ++ ", " ++ host)
        | some host, none => some host
        | none, _ => tget h0 "X-Forwarded-Host")) ∧
    (tget (proxyRequestHeaders .post headersIn clientIp serverName
        contentType h0) "X-Forwarded-Server" =
      some (match tget headersIn "X-Forwarded-Server" with
        | some buf => buf ++ ", " ++ serverName
        | none => serverName)) ∧
    (tget (proxyRequestHeaders .post headersIn clientIp serverName
        contentType h0) "Content-Type" = some contentType) ∧
    proxyRequestHeaders .get headersIn clientIp serverName contentType h0 =
      h0 := by
  have hfs : ("X-Forwarded-For" : String) ≠ "X-Forwarded-Server" := by decide
  have hfh : ("X-Forwarded-For" : String) ≠ "X-Forwarded-Host" := by decide
  have hhs : ("X-Forwarded-Host" : String) ≠ "X-Forwarded-Server" := by decide
  have hcf : ("Content-Type" : String) ≠ "X-Forwarded-For" := by decide
  have hch : ("Content-Type" : String) ≠ "X-Forwarded-Host" := by decide
  have hcs : ("Content-Type" : String) ≠ "X-Forwarded-Server" := by decide
  have hfc : ("X-Forwarded-For" : String) ≠ "Content-Type" := by decide
  have hhc : ("X-Forwarded-Host" : String) ≠ "Content-Type" := by decide
  have hsc : ("X-Forwarded-Server" : String) ≠ "Content-Type" := by decide
  have hhf : ("X-Forwarded-Host" : String) ≠ "X-Forwarded-For" := by decide
  have hsf : ("X-Forwarded-Server" : String) ≠ "X-Forwarded-For" := by decide
  have hsh : ("X-Forwarded-Server" : String) ≠ "X-Forwarded-Host" := by decide
  refine ⟨?_, ?_, ?_, ?_, rfl⟩ <;>
    simp only [proxyRequestHeaders, proxyForwardHeaders] <;>
    rcases tget headersIn "X-Forwarded-For" with _ | bufXff <;>
    rcases tget headersIn "Host" with _ | bufHost <;>
    rcases tget headersIn "X-Forwarded-Host" with _ | bufXfh <;>
    rcases tget headersIn "X-Forwarded-Server" with _ | bufXfs <;>
    simp [tget_tset_self, tget_tset_ne, hfs, hfh, hhs, hcf, hch, hcs,
      hfc, hhc, hsc, hhf, hsf, hsh]

/-- Claim C5: the fallback locker tries its children in order; the first
child whose `aquire_lock` raises no error wins — its result is returned, the
token is wrapped with that child's identity, and `release_lock` / `ping_lock`
dispatch to exactly that child and token; errors of earlier children are
cleared (the ledger ends as it began) as long as a later child remained, and
when every child errors only the last child's error stays visible on top of
the original ledger. -/
theorem fallback_acquire_first_success (ctx0 : List Nat)
    (children : List ChildLocker) :
    (∀ j, j < children.length →
      (∀ i, i < j → (children.getD i default).err ≠ none) →
      (children.getD j default).err = none →
      (mapcache_locker_fallback_aquire_lock ctx0 children).ret =
          (children.getD j default).result ∧
        (mapcache_locker_fallback_aquire_lock ctx0 children).flock =
          ⟨some (children.getD j default).rid,
           some (children.getD j default).token⟩ ∧
        (mapcache_locker_fallback_aquire_lock ctx0 children).errs = ctx0 ∧
        mapcache_locker_fallback_release_lock
            (mapcache_locker_fallback_aquire_lock ctx0 children).flock =
          some ((children.getD j default).rid,
                (children.getD j default).token) ∧
        mapcache_locker_fallback_ping_lock
            (mapcache_locker_fallback_aquire_lock ctx0 children).flock =
          some ((children.getD j default).rid,
                (children.getD j default).token)) ∧
    (∀ clast, children.getLast? = some clast →
      (∀ c ∈ children, c.err ≠ none) →
      (mapcache_locker_fallback_aquire_lock ctx0 children).ret = .noent ∧
        (mapcache_locker_fallback_aquire_lock ctx0 children).errs =
          clast.err.toList ++ ctx0) := by
  constructor
  · intro j
    induction children generalizing j with
    | nil => intro hj; exact absurd hj (by simp)
    | cons c rest ih =>
      intro hj hfirst herr
      match j with
      | 0 =>
        simp only [List.getD_cons_zero] at herr ⊢
        match hce : c.err with
        | none =>
          simp [mapcache_locker_fallback_aquire_lock, fallbackAcquireLoop,
            hce, mapcache_locker_fallback_release_lock,
            mapcache_locker_fallback_ping_lock]
        | some e => exact absurd hce (by simp [herr])
      | j+1 =>
        have hc : c.err ≠ none := by
          have := hfirst 0 (Nat.succ_pos j)
          simpa using this
        match hce : c.err with
        | none => exact absurd hce hc
        | some e =>
          have hrest : ¬ rest.isEmpty := by
            simp only [List.length_cons, Nat.succ_lt_succ_iff] at hj
            cases rest with
            | nil => exact absurd hj (by simp)
            | cons _ _ => simp
          have hstep :
              mapcache_locker_fallback_aquire_lock ctx0 (c :: rest) =
                mapcache_locker_fallback_aquire_lock ctx0 rest := by
            simp [mapcache_locker_fallback_aquire_lock,
              fallbackAcquireLoop, hce, hrest]
          have hj2 : j < rest.length := by
            simpa [Nat.succ_lt_succ_iff] using hj
          have hfirst2 : ∀ i, i < j → (rest.getD i default).err ≠ none := by
            intro i hi
            have := hfirst (i+1) (Nat.succ_lt_succ hi)
            simpa using this
          have herr2 : (rest.getD j default).err = none := by
            simpa using herr
          have := ih j hj2 hfirst2 herr2
          simpa [hstep] using this
  · intro clast hlast hall
    induction children with
    | nil => simp at hlast
    | cons c rest ih =>
      have hc : c.err ≠ none := hall c (List.mem_cons_self c rest)
      match hce : c.err with
      | none => exact absurd hce hc
      | some e =>
        cases rest with
        | nil =>
          have hcc : clast = c := by
            have := hlast
            simp at this
            exact this.symm
          subst hcc
          simp [mapcache_locker_fallback_aquire_lock, fallbackAcquireLoop,
            hce]
        | cons c2 rest2 =>
          have hstep :
              mapcache_locker_fallback_aquire_lock ctx0 (c :: c2 :: rest2) =
                mapcache_locker_fallback_aquire_lock ctx0 (c2 :: rest2) := by
            simp [mapcache_locker_fallback_aquire_lock,
              fallbackAcquireLoop, hce]
          have hlast2 : (c2 :: rest2).getLast? = some clast := by
            rw [← hlast]
            simp [List.getLast?_cons_cons]
          have hall2 : ∀ x ∈ c2 :: rest2, x.err ≠ none :=
            fun x hx => hall x (List.mem_cons_of_mem c hx)
          have := ih hlast2 hall2
          simpa [hstep] using this

/-- Witness for C5: two children, the first erroring (error value 5), the
second acquiring without error; plus the all-error ledger shape on a pair of
erroring children. -/
theorem fallback_acquire_first_success_witness :
    ((mapcache_locker_fallback_aquire_lock [9]
        [⟨.aquired, some 5, 11, 1⟩, ⟨.locked, none, 22, 2⟩]).ret =
        LockResult.locked ∧
      (mapcache_locker_fallback_aquire_lock [9]
        [⟨.aquired, some 5, 11, 1⟩, ⟨.locked, none, 22, 2⟩]).flock =
        ⟨some 2, some 22⟩ ∧
      (mapcache_locker_fallback_aquire_lock [9]
        [⟨.aquired, some 5, 11, 1⟩, ⟨.locked, none, 22, 2⟩]).errs = [9] ∧
      mapcache_locker_fallback_release_lock
        (mapcache_locker_fallback_aquire_lock [9]
          [⟨.aquired, some 5, 11, 1⟩, ⟨.locked, none, 22, 2⟩]).flock =
        some (2, 22) ∧
      mapcache_locker_fallback_ping_lock
        (mapcache_locker_fallback_aquire_lock [9]
          [⟨.aquired, some 5, 11, 1⟩, ⟨.locked, none, 22, 2⟩]).flock =
        some (2, 22)) ∧
    ((mapcache_locker_fallback_aquire_lock [9]
        [⟨.aquired, some 5, 11, 1⟩, ⟨.locked, some 6, 22, 2⟩]).ret =
        LockResult.noent ∧
      (mapcache_locker_fallback_aquire_lock [9]
        [⟨.aquired, some 5, 11, 1⟩, ⟨.locked, some 6, 22, 2⟩]).errs =
        (some 6).toList ++ [9]) := by
  constructor
  · have h := (fallback_acquire_first_success [9]
      [⟨.aquired, some 5, 11, 1⟩, ⟨.locked, none, 22, 2⟩]).1 1
      (by decide)
      (by intro i hi; rw [Nat.lt_one_iff] at hi; subst hi; decide)
      (by decide)
    simpa using h
  · exact (fallback_acquire_first_success [9]
      [⟨.aquired, some 5, 11, 1⟩, ⟨.locked, some 6, 22, 2⟩]).2
      ⟨.locked, some 6, 22, 2⟩ (by decide)
      (by intro c hc; fin_cases hc <;> decide)

/-- Claim C8: with `detect_blank` configured and a decoded raw image of one
uniform color (first pixel `px`, 4 RGBA bytes), `_mapcache_cache_riak_set`
stores exactly the 5 bytes `'#' :: px` under content type
image/mapcache-rgba, and `_mapcache_cache_riak_get` on that stored value
recognizes the sentinel and reconstructs, via `mapcache_empty_png_decode`, a
blank tile of the grid's tile width and height with `nodata` set and the same
RGBA color. -/
theorem riak_blank_roundtrip (img : RawImage) (px : List Nat)
    (rest : List (List Nat)) (decoded : RawImage)
    (encoded : Option (List Nat)) (formatWrite : List Nat)
    (formatMime sniffed : Option String) (tileSx tileSy : Nat)
    (hpx : img.pixels = px :: rest) (hlen : px.length = 4)
    (huni : mapcache_image_blank_color img = true) :
    (_mapcache_cache_riak_set true (some img) decoded encoded formatWrite
        formatMime sniffed).data = hashByte :: px ∧
    (_mapcache_cache_riak_set true (some img) decoded encoded formatWrite
        formatMime sniffed).data.length = 5 ∧
    (_mapcache_cache_riak_set true (some img) decoded encoded formatWrite
        formatMime sniffed).ctype = some "image/mapcache-rgba" ∧
    _mapcache_cache_riak_get tileSx tileSy
        (.ok ⟨[⟨(_mapcache_cache_riak_set true (some img) decoded encoded
            formatWrite formatMime sniffed).data,
          "image/mapcache-rgba"⟩]⟩) =
      { ret := .success, ctxError := false,
        encoded := some (.blank tileSx tileSy px), nodata := true } := by
  have htake : img.pixels.flatten.take 4 = px := by
    rw [hpx]
    rw [List.flatten_cons]
    rw [← hlen]
    exact List.take_left px rest.flatten
  have hdata : (_mapcache_cache_riak_set true (some img) decoded encoded
      formatWrite formatMime sniffed).data = hashByte :: px := by
    simp [_mapcache_cache_riak_set, huni, htake]
  have hctype : (_mapcache_cache_riak_set true (some img) decoded encoded
      formatWrite formatMime sniffed).ctype = some "image/mapcache-rgba" := by
    simp [_mapcache_cache_riak_set, huni]
  refine ⟨hdata, by rw [hdata]; simp [hlen], hctype, ?_⟩
  rw [hdata]
  simp [_mapcache_cache_riak_get, hlen, mapcache_empty_png_decode]

/-- Witness for C8: a uniform 2 by 2 RGBA image of color (1,2,3,4) on a
256 by 256 grid. -/
theorem riak_blank_roundtrip_witness :
    (_mapcache_cache_riak_set true
        (some ⟨2, 2, [[1,2,3,4],[1,2,3,4],[1,2,3,4],[1,2,3,4]]⟩) ⟨0,0,[]⟩
        (some [9,9]) [] none none).data = hashByte :: [1,2,3,4] ∧
    (_mapcache_cache_riak_set true
        (some ⟨2, 2, [[1,2,3,4],[1,2,3,4],[1,2,3,4],[1,2,3,4]]⟩) ⟨0,0,[]⟩
        (some [9,9]) [] none none).data.length = 5 ∧
    (_mapcache_cache_riak_set true
        (some ⟨2, 2, [[1,2,3,4],[1,2,3,4],[1,2,3,4],[1,2,3,4]]⟩) ⟨0,0,[]⟩
        (some [9,9]) [] none none).ctype = some "image/mapcache-rgba" ∧
    _mapcache_cache_riak_get 256 256
        (.ok ⟨[⟨(_mapcache_cache_riak_set true
            (some ⟨2, 2, [[1,2,3,4],[1,2,3,4],[1,2,3,4],[1,2,3,4]]⟩) ⟨0,0,[]⟩
            (some [9,9]) [] none none).data, "image/mapcache-rgba"⟩]⟩) =
      { ret := .success, ctxError := false,
        encoded := some (.blank 256 256 [1,2,3,4]), nodata := true } :=
  riak_blank_roundtrip ⟨2, 2, [[1,2,3,4],[1,2,3,4],[1,2,3,4],[1,2,3,4]]⟩
    [1,2,3,4] [[1,2,3,4],[1,2,3,4],[1,2,3,4]] ⟨0,0,[]⟩ (some [9,9]) []
    none none 256 256 rfl rfl (by decide)

end Mapcache
